import Mathlib

/-!
Shallow embedding of the FireBreak-Lambda-Functions repository
(src/lambda_functions/port_control.py and src/lambda_functions/port_status.py)
and proofs about its specification.

JSON values are modelled by `JVal`, loosely typed Python values reaching the
handlers by `PyVal`.  The device HTTP call is a parameter of the embedding
(`UpstreamOutcome`), elapsed wall-clock time is an explicit rational
parameter, and Python floats are modelled as rationals.  String operations
cover the ASCII fragment that the code's regular expressions and the claims
exercise.
-/

namespace FireBreak

/-- A JSON value, as produced by json.loads / consumed by json.dumps. -/
inductive JVal where
  | null
  | bool (b : Bool)
  | int (n : Int)
  | rat (q : ℚ)
  | str (s : String)
  | arr (elems : List JVal)
  | obj (fields : List (String × JVal))

/-- A loosely typed Python value arriving in a Lambda event. -/
inductive PyVal where
  | pnone
  | pbool (b : Bool)
  | pint (n : Int)
  | pfloat (q : ℚ)
  | pstr (s : String)
  | plist (xs : List PyVal)

mutual
/-- Python repr() on event values (float rendering abstracted to ℚ). -/
def pyRepr : PyVal → String
  | .pnone => "None"
  | .pbool true => "True"
  | .pbool false => "False"
  | .pint n => toString n
  | .pfloat q => toString q
  | .pstr s => "\x27" ++ s ++ "\x27"
  | .plist xs => "[" ++ pyReprElems xs ++ "]"

/-- Comma-separated repr of list elements. -/
def pyReprElems : List PyVal → String
  | [] => ""
  | [v] => pyRepr v
  | v :: rest => pyRepr v ++ ", " ++ pyReprElems rest
end

/-- Python str() on event values (str of a string is the string itself). -/
def pyStr : PyVal → String
  | .pstr s => s
  | v => pyRepr v

/-- Python type(value).__name__ for the modelled value kinds. -/
def pyTypeName : PyVal → String
  | .pnone => "NoneType"
  | .pbool _ => "bool"
  | .pint _ => "int"
  | .pfloat _ => "float"
  | .pstr _ => "str"
  | .plist _ => "list"

mutual
/-- The JSON value a Python value serializes to in a request payload. -/
def pyToJVal : PyVal → JVal
  | .pnone => .null
  | .pbool b => .bool b
  | .pint n => .int n
  | .pfloat q => .rat q
  | .pstr s => .str s
  | .plist xs => .arr (pyToJValList xs)

/-- Serialization of a list of Python values. -/
def pyToJValList : List PyVal → List JVal
  | [] => []
  | v :: rest => pyToJVal v :: pyToJValList rest
end

/-- Whitespace characters removed by Python str.strip (ASCII fragment). -/
def pySpace (c : Char) : Bool :=
  c = ' ' || c = '\t' || c = '\n' || c = '\r' || c = '\x0b' || c = '\x0c'

/-- Python str.strip(): drop leading and trailing whitespace. -/
def pyStrip (s : String) : String :=
  ⟨((s.toList.dropWhile pySpace).reverse.dropWhile pySpace).reverse⟩

/-- Python str.lower() (ASCII fragment). -/
def pyLower (s : String) : String := ⟨s.toList.map Char.toLower⟩

/-- Decimal value of a digit list, admitting leading zeros, as int() does. -/
def digitsVal (l : List Char) : Nat :=
  l.foldl (fun a c => a * 10 + (c.toNat - 48)) 0

mutual
/-- The digit run of Python int(): one or more digits, where a single
underscore separator may occur between two digits (PEP 515). -/
def pyDigitsRun : List Char → Bool
  | [] => false
  | c :: rest => c.isDigit && pyDigitsRest rest

/-- Continuation of a digit run: empty, another digit, or an underscore
that must be followed by a digit. -/
def pyDigitsRest : List Char → Bool
  | [] => true
  | '_' :: rest =>
      match rest with
      | [] => false
      | c :: rest2 => c.isDigit && pyDigitsRest rest2
  | c :: rest => c.isDigit && pyDigitsRest rest
end

/-- Python int(str): strip whitespace, optional sign, a digit run with
optional single underscore separators between digits (ASCII fragment). -/
def pyIntParse (s : String) : Option Int :=
  match (pyStrip s).toList with
  | '+' :: ds =>
      if pyDigitsRun ds then some (digitsVal (ds.filter (fun c => c ≠ '_')))
      else none
  | '-' :: ds =>
      if pyDigitsRun ds then some (-(digitsVal (ds.filter (fun c => c ≠ '_')) : Int))
      else none
  | ds =>
      if pyDigitsRun ds then some (digitsVal (ds.filter (fun c => c ≠ '_')))
      else none

/-- The characters rejected outright by validate_api_ip. -/
def badChar (c : Char) : Bool :=
  c = '@' || c = '/' || c = '\\' || c = '?' || c = '#'

/-- ASCII alphanumeric, [A-Za-z0-9] of the validation patterns. -/
def isAlnumChar (c : Char) : Bool := c.isAlpha || c.isDigit

/-- Python str.split(sep) for a single-character separator. -/
def splitOnChar (sep : Char) : List Char → List (List Char)
  | [] => [[]]
  | c :: rest =>
    let r := splitOnChar sep rest
    if c = sep then [] :: r
    else
      match r with
      | [] => [[c]]
      | g :: gs => (c :: g) :: gs

/-- One alternative of the IPv4 octet pattern 25[0-5]|2[0-4]\d|[01]?\d\d?:
equivalently one to three digits with value at most 255. -/
def octetOk (l : List Char) : Bool :=
  !l.isEmpty && decide (l.length ≤ 3) && l.all Char.isDigit &&
    decide (digitsVal l ≤ 255)

/-- The full ipv4_pattern: four dot-separated octets. -/
def hostIPv4 (l : List Char) : Bool :=
  match splitOnChar '.' l with
  | [a, b, c, d] => octetOk a && octetOk b && octetOk c && octetOk d
  | _ => false

/-- One DNS label of dns_pattern: 1-63 chars, alphanumeric with internal
hyphens, first and last character alphanumeric. -/
def labelOk (l : List Char) : Bool :=
  match l with
  | [] => false
  | c :: rest =>
    decide (rest.length + 1 ≤ 63) && isAlnumChar c &&
      isAlnumChar (rest.getLastD c) &&
      (c :: rest).all (fun x => isAlnumChar x || x = '-')

/-- The full dns_pattern: total length 1-253, dot-separated valid labels. -/
def hostDns (l : List Char) : Bool :=
  decide (1 ≤ l.length) && decide (l.length ≤ 253) &&
    (splitOnChar '.' l).all labelOk

/-- The host alternatives accepted by validate_api_ip. -/
def hostCheck (l : List Char) : Bool :=
  l == ("localhost").toList || hostIPv4 l || hostDns l

/-- validate_api_ip on a character list: empty and dangerous-character
rejection, colon split, host check, optional numeric port in [1, 65535]. -/
def validateChars (l : List Char) : Bool :=
  if l.isEmpty then false
  else if l.any badChar then false
  else
    match splitOnChar ':' l with
    | [host] => hostCheck host
    | [host, p] =>
        if !hostCheck host then false
        else
          !p.isEmpty && p.all Char.isDigit &&
            decide (1 ≤ digitsVal p) && decide (digitsVal p ≤ 65535)
    | _ => false

/-- validate_api_ip from port_control.py lines 39-90 (identical in
port_status.py lines 38-89). -/
def validate_api_ip (s : String) : Bool := validateChars s.toList

/-- Elapsed milliseconds rounded to two decimal places, round((..)*1000, 2). -/
def round2 (t : ℚ) : ℚ := ((round (100 * t) : ℤ) : ℚ) / 100

/-- Outcome of the HTTP call to the device, a parameter of the embedding:
a parsed JSON response, a non-JSON body, an HTTP error status, a transport
failure, or any other exception raised during the call. -/
inductive UpstreamOutcome where
  | ok (resp : JVal)
  | badJson
  | httpError (code : Nat) (reason : String)
  | urlError (reason : String)
  | otherError (details : String)

/-- The exception classes escaping control_port / fetch_port_status. -/
inductive CtrlErr where
  | valueError (msg : String)
  | jsonDecode
  | httpError (code : Nat) (reason : String)
  | urlError (reason : String)
  | other (details : String)

/-- The statusCode / JSON-body pair returned by a handler (the fixed
Content-Type header is omitted). -/
structure Envelope where
  statusCode : Nat
  body : List (String × JVal)

/-- Python x + 1 on a JSON value, as applied to a response port field. -/
def jAddOne : JVal → Except String JVal
  | .int n => .ok (.int (n + 1))
  | .bool b => .ok (.int ((if b then (1 : Int) else 0) + 1))
  | .rat q => .ok (.rat (q + 1))
  | _ => .error ("unsupported operand type for +")

/-- Python d[k] = v on an ordered field list: replace in place or append. -/
def setField : List (String × JVal) → String → JVal → List (String × JVal)
  | [], k, v => [(k, v)]
  | (k0, v0) :: rest, k, v =>
      if k0 = k then (k, v) :: rest else (k0, v0) :: setField rest k v

/-- Is the (needle) list a contiguous sublist of the second list. -/
def subListOf (needle : List Char) : List Char → Bool
  | [] => needle.isEmpty
  | c :: rest => needle.isPrefixOf (c :: rest) || subListOf needle rest

/-- port_data['port'] = port_data['port'] + 1 guarded by a key check. -/
def bumpObjPort (fs : List (String × JVal)) : Except String (List (String × JVal)) :=
  match fs.lookup ("port") with
  | some v => (jAddOne v).map (setField fs ("port"))
  | none => .ok fs

/-- The per-element response-offset step: a dict gets its port field bumped
when present; on non-dict elements the Python membership test or indexing
raises TypeError, caught only by the handler's catch-all. -/
def bumpElem : JVal → Except String JVal
  | .obj fs => (bumpObjPort fs).map .obj
  | .str s =>
      if subListOf ("port").toList s.toList then
        .error ("string indices must be integers")
      else .ok (.str s)
  | .arr ys =>
      if ys.any (fun v => match v with | .str s => s == "port" | _ => false) then
        .error ("list indices must be integers")
      else .ok (.arr ys)
  | _ => .error ("argument of type is not iterable")

/-- Scalar inverse translation applied to response port numbers,
port_control.py lines 182-198: add one in physical mode, identity otherwise. -/
def toCallerNumbering (offset : Bool) (p : Int) : Int :=
  if offset then p + 1 else p

/-- Response-offset translation of control_port, lines 182-198: in physical
mode a dict with a port field is bumped, a list gets each element bumped,
anything else (and everything when offset is off) passes through raw. -/
def translateResponse (offset : Bool) (resp : JVal) : Except String JVal :=
  if offset then
    match resp with
    | .obj fs => (bumpObjPort fs).map .obj
    | .arr xs => (xs.mapM bumpElem).map .arr
    | v => .ok v
  else .ok resp

/-- Scalar forward translation of control_port, lines 136-146: bounds check
against the active numbering, then subtract one in physical mode. -/
def toDeviceNumbering (offset : Bool) (p : Int) : Except String Int :=
  if offset then
    if p < 1 ∨ 12 < p then
      .error ("FireBreak port must be an integer between 1 and 12 (physical numbering), got: " ++ toString p)
    else .ok (p - 1)
  else
    if p < 0 ∨ 11 < p then
      .error ("FireBreak port must be an integer between 0 and 11 (API numbering), got: " ++ toString p)
    else .ok p

/-- The numeric view Python's isinstance(port, int) gives: true booleans
count as 1, false as 0, plain ints as themselves. -/
def pyIntVal : PyVal → Option Int
  | .pbool b => some (if b then 1 else 0)
  | .pint n => some n
  | _ => none

namespace PortControl

/-- Port validation and payload port value of control_port, lines 135-152:
ints (and bools, which isinstance counts as ints) are range-checked, with
the in-range value forwarded as-is when offset is off and as value minus one
when offset is on; the string all passes through; anything else raises. -/
def toApiPort (offset : Bool) (port : PyVal) : Except String JVal :=
  match pyIntVal port with
  | some v =>
      if offset then
        if v < 1 ∨ 12 < v then
          .error ("FireBreak port must be an integer between 1 and 12 (physical numbering), got: " ++ pyStr port)
        else .ok (.int (v - 1))
      else
        if v < 0 ∨ 11 < v then
          .error ("FireBreak port must be an integer between 0 and 11 (API numbering), got: " ++ pyStr port)
        else .ok (pyToJVal port)
  | none =>
      match port with
      | .pstr s =>
          if s = "all" then .ok (.str "all")
          else
            .error ("FireBreak port must be an integer (" ++
              (if offset then "1-12" else "0-11") ++ ", " ++
              (if offset then "physical" else "API") ++
              " numbering) or \x27all\x27, got: " ++ s)
      | v =>
          .error ("FireBreak port must be an integer (" ++
            (if offset then "1-12" else "0-11") ++ ", " ++
            (if offset then "physical" else "API") ++
            " numbering) or \x27all\x27, got: " ++ pyStr v)

/-- The JSON request payload control_port sends, lines 154-158. -/
def controlPayload (offset : Bool) (port : PyVal) (activate : Bool) :
    Except String (List (String × JVal)) :=
  (toApiPort offset port).map fun ap => [("port", ap), ("activate", .bool activate)]

/-- control_port, lines 111-198: validate and translate the port, perform
the POST, decode the response, apply the inverse numbering translation. -/
def control_port (offset : Bool) (port : PyVal) (activate : Bool)
    (upstream : UpstreamOutcome) : Except CtrlErr JVal :=
  match controlPayload offset port activate with
  | .error m => .error (.valueError m)
  | .ok _ =>
    match upstream with
    | .ok resp =>
        match translateResponse offset resp with
        | .ok r => .ok r
        | .error m => .error (.other m)
    | .badJson => .error .jsonDecode
    | .httpError c r => .error (.httpError c r)
    | .urlError r => .error (.urlError r)
    | .otherError d => .error (.other d)

/-- parse_bool, port_control.py lines 447-471. -/
def parse_bool : PyVal → Except String Bool
  | .pbool b => .ok b
  | .pint n =>
      if n = 0 ∨ n = 1 then .ok (n == 1)
      else .error ("Invalid integer for boolean: " ++ toString n)
  | .pstr s =>
      let v := pyLower (pyStrip s)
      if v ∈ [("true"), "1", "yes", "y", "on"] then .ok true
      else if v ∈ [("false"), "0", "no", "n", "off"] then .ok false
      else .error ("Invalid string for boolean: \x27" ++ s ++ "\x27")
  | v => .error ("Unsupported type for boolean: " ++ pyTypeName v)

/-- The handler's normalization of the port parameter, lines 297-314:
strings equal to all after lowercasing become the sentinel, other strings
are parsed as ints, non-strings pass through unchanged. -/
def normalizePort : PyVal → Except String PyVal
  | .pstr s =>
      if pyLower s = "all" then .ok (.pstr "all")
      else
        match pyIntParse s with
        | some n => .ok (.pint n)
        | none =>
            .error ("FireBreak port must be a number (0-11) or \x27all\x27, got: " ++ s)
  | v => .ok v

/-- The catch-all 500 envelope of the control handler, lines 431-445. -/
def catchAll (t : ℚ) : Envelope :=
  ⟨500, [("error", .str ("Unexpected error occurred while controlling Goldilock FireBreak API")),
         ("executionTimeMs", .rat (round2 t))]⟩

/-- The body-extraction outcomes of lambda_handler lines 256-272: no usable
body field (absent or falsy, parameters read from the event itself), a body
string that is not valid JSON, a body decoding to a non-dict, a truthy
non-string body, or a decoded dict carrying optional port and activate. -/
inductive EventBody where
  | absent
  | malformed
  | nonDictJson
  | nonString
  | parsed (port : Option PyVal) (activate : Option PyVal)

/-- The Lambda event: the body field outcome plus top-level parameters. -/
structure Event where
  body : EventBody
  port : Option PyVal
  activate : Option PyVal

/-- Lines 274-445 of lambda_handler: parameter checks, port normalization,
boolean coercion, the device call, result wrapping and exception mapping. -/
def handlerCore (offset : Bool) (po ao : Option PyVal)
    (upstream : UpstreamOutcome) (t : ℚ) : Envelope :=
  let tm : String × JVal := ("executionTimeMs", .rat (round2 t))
  match po with
  | none => ⟨400, [("error", .str ("Missing required parameter: port")), tm]⟩
  | some port0 =>
  match ao with
  | none => ⟨400, [("error", .str ("Missing required parameter: activate")), tm]⟩
  | some act0 =>
  match normalizePort port0 with
  | .error msg => ⟨400, [("error", .str msg), tm]⟩
  | .ok port1 =>
  match parse_bool act0 with
  | .error _ =>
      ⟨400, [("error", .str ("Invalid value for \x27activate\x27: expected boolean (true/false) or equivalent")), tm]⟩
  | .ok act =>
  match control_port offset port1 act upstream with
  | .ok (.arr xs) => ⟨200, [("ports", .arr xs), tm]⟩
  | .ok (.obj fs) => ⟨200, setField fs ("executionTimeMs") (.rat (round2 t))⟩
  | .ok _ => catchAll t
  | .error (.valueError m) => ⟨400, [("error", .str m), tm]⟩
  | .error .jsonDecode =>
      ⟨500, [("error", .str ("Invalid JSON response from Goldilock FireBreak API")), tm]⟩
  | .error (.httpError c r) =>
      ⟨c, [("error", .str ("Goldilock FireBreak API HTTP error: " ++ r)), tm]⟩
  | .error (.urlError r) =>
      ⟨502, [("error", .str ("Goldilock FireBreak API URL error: " ++ r)), tm]⟩
  | .error (.other _) => catchAll t

/-- lambda_handler of port_control.py lines 201-445.  The malformed-body
return at lines 264-268 is the one envelope built without timing metadata. -/
def lambda_handler (offset tokenPresent : Bool) (event : Event)
    (upstream : UpstreamOutcome) (t : ℚ) : Envelope :=
  if !tokenPresent then
    ⟨500, [("error", .str ("API_TOKEN environment variable is missing")),
           ("executionTimeMs", .rat (round2 t))]⟩
  else
    match event.body with
    | .malformed => ⟨400, [("error", .str ("Invalid JSON in request body"))]⟩
    | .nonDictJson => catchAll t
    | .nonString => catchAll t
    | .absent => handlerCore offset event.port event.activate upstream t
    | .parsed p a => handlerCore offset p a upstream t

end PortControl

namespace PortStatus

/-- fetch_port_status, port_status.py lines 110-155: GET, decode, and in
physical mode bump every port field of a list response. -/
def fetch_port_status (offset : Bool) (upstream : UpstreamOutcome) :
    Except CtrlErr JVal :=
  match upstream with
  | .ok raw =>
      if offset then
        match raw with
        | .arr xs =>
            match xs.mapM bumpElem with
            | .ok ys => .ok (.arr ys)
            | .error m => .error (.other m)
        | v => .ok v
      else .ok raw
  | .badJson => .error .jsonDecode
  | .httpError c r => .error (.httpError c r)
  | .urlError r => .error (.urlError r)
  | .otherError d => .error (.other d)

/-- The catch-all 500 envelope of the status handler, lines 265-279. -/
def catchAll (t : ℚ) : Envelope :=
  ⟨500, [("error", .str ("Unexpected error occurred while querying Goldilock FireBreak API")),
         ("executionTimeMs", .rat (round2 t))]⟩

/-- Python len() is defined on the sized JSON values (list, dict, string);
on anything else the success-path logging raises TypeError. -/
def sizedJVal : JVal → Bool
  | .arr _ => true
  | .obj _ => true
  | .str _ => true
  | _ => false

/-- lambda_handler of port_status.py lines 158-279. -/
def lambda_handler (offset tokenPresent : Bool) (upstream : UpstreamOutcome)
    (t : ℚ) : Envelope :=
  let tm : String × JVal := ("executionTimeMs", .rat (round2 t))
  if !tokenPresent then
    ⟨500, [("error", .str ("API_TOKEN environment variable is missing")), tm]⟩
  else
    match fetch_port_status offset upstream with
    | .ok d => if sizedJVal d then ⟨200, [("ports", d), tm]⟩ else catchAll t
    | .error (.httpError c r) =>
        ⟨c, [("error", .str ("Goldilock FireBreak API HTTP error: " ++ r)), tm]⟩
    | .error (.urlError r) =>
        ⟨502, [("error", .str ("Goldilock FireBreak API URL error: " ++ r)), tm]⟩
    | .error .jsonDecode =>
        ⟨500, [("error", .str ("Invalid JSON response from Goldilock FireBreak API")), tm]⟩
    | .error (.valueError _) => catchAll t
    | .error (.other _) => catchAll t

end PortStatus

/-! ### Host grammar, stated from the specification side -/

/-- Join labels with dots, the shape of a multi-label host string. -/
def joinDots : List (List Char) → List Char
  | [] => []
  | [l] => l
  | l :: ls => l ++ '.' :: joinDots ls

/-- An RFC-1123-subset DNS label as the spec words it: 1-63 characters,
alphanumeric with internal hyphens (first and last character alphanumeric). -/
def specLabel (l : List Char) : Prop :=
  1 ≤ l.length ∧ l.length ≤ 63 ∧
    (∀ c ∈ l, isAlnumChar c = true ∨ c = '-') ∧
    l.head?.all isAlnumChar = true ∧ l.getLast?.all isAlnumChar = true

/-- A dotted-quad octet: one to three digits with value at most 255. -/
def specOctet (l : List Char) : Prop :=
  1 ≤ l.length ∧ l.length ≤ 3 ∧ (∀ c ∈ l, c.isDigit = true) ∧ digitsVal l ≤ 255

/-- A port suffix carrying an integer in [1, 65535] in decimal digits. -/
def specPortDigits (l : List Char) : Prop :=
  l ≠ [] ∧ (∀ c ∈ l, c.isDigit = true) ∧ 1 ≤ digitsVal l ∧ digitsVal l ≤ 65535

theorem joinDots_single (l : List Char) : joinDots [l] = l := rfl

theorem joinDots_cons (a : List Char) (b : List Char) (t : List (List Char)) :
    joinDots (a :: b :: t) = a ++ '.' :: joinDots (b :: t) := rfl

theorem splitOnChar_nil (sep : Char) : splitOnChar sep [] = [[]] := rfl

theorem splitOnChar_ne_nil (sep : Char) (l : List Char) :
    splitOnChar sep l ≠ [] := by
  induction l with
  | nil => simp [splitOnChar]
  | cons c rest ih =>
    simp only [splitOnChar]
    split
    · simp
    · match h : splitOnChar sep rest with
      | [] => simp
      | g :: gs => simp [h]

theorem splitOnChar_of_not_mem {sep : Char} {l : List Char} (h : sep ∉ l) :
    splitOnChar sep l = [l] := by
  induction l with
  | nil => rfl
  | cons c rest ih =>
    have hc : ¬c = sep := fun hh => h (hh ▸ List.mem_cons_self c rest)
    have hr : sep ∉ rest := fun hh => h (List.mem_cons_of_mem _ hh)
    simp only [splitOnChar, if_neg hc, ih hr]

theorem splitOnChar_append {sep : Char} {l1 : List Char} (l2 : List Char)
    (h : sep ∉ l1) :
    splitOnChar sep (l1 ++ sep :: l2) = l1 :: splitOnChar sep l2 := by
  induction l1 with
  | nil => simp [splitOnChar]
  | cons c rest ih =>
    have hc : ¬c = sep := fun hh => h (hh ▸ List.mem_cons_self c rest)
    have hr : sep ∉ rest := fun hh => h (List.mem_cons_of_mem _ hh)
    simp only [List.cons_append, splitOnChar, if_neg hc, List.append_eq, ih hr]

theorem splitOnChar_joinDots {labels : List (List Char)}
    (hne : labels ≠ []) (hdot : ∀ l ∈ labels, '.' ∉ l) :
    splitOnChar '.' (joinDots labels) = labels := by
  induction labels with
  | nil => exact absurd rfl hne
  | cons a t ih =>
    match t with
    | [] =>
      exact splitOnChar_of_not_mem (hdot a (List.mem_cons_self a []))
    | b :: t2 =>
      rw [joinDots_cons]
      rw [splitOnChar_append _ (hdot a (List.mem_cons_self a _))]
      rw [ih (by simp) (fun l hl => hdot l (List.mem_cons_of_mem _ hl))]

theorem splitOnChar_length (sep : Char) (l : List Char) :
    (splitOnChar sep l).length = l.count sep + 1 := by
  induction l with
  | nil => simp [splitOnChar]
  | cons c rest ih =>
    simp only [splitOnChar]
    by_cases hc : c = sep
    · subst hc
      simp [List.count_cons, ih]
    · rw [if_neg hc]
      match h : splitOnChar sep rest with
      | [] => exact absurd h (splitOnChar_ne_nil sep rest)
      | g :: gs =>
        rw [h] at ih
        simp only [List.length_cons] at ih ⊢
        have : List.count sep (c :: rest) = List.count sep rest := by
          simp [List.count_cons, hc]
        omega

theorem mem_joinDots {c : Char} {labels : List (List Char)}
    (h : c ∈ joinDots labels) : (∃ l ∈ labels, c ∈ l) ∨ c = '.' := by
  induction labels with
  | nil => simp [joinDots] at h
  | cons a t ih =>
    match t with
    | [] =>
      rw [joinDots_single] at h
      exact Or.inl ⟨a, List.mem_cons_self a [], h⟩
    | b :: t2 =>
      rw [joinDots_cons] at h
      rcases List.mem_append.1 h with h1 | h1
      · exact Or.inl ⟨a, List.mem_cons_self a _, h1⟩
      · rcases List.mem_cons.1 h1 with h2 | h2
        · exact Or.inr h2
        · rcases ih h2 with ⟨l, hl, hcl⟩ | h3
          · exact Or.inl ⟨l, List.mem_cons_of_mem _ hl, hcl⟩
          · exact Or.inr h3

theorem badChar_false_of_label_char {c : Char}
    (h : isAlnumChar c = true ∨ c = '-' ∨ c = '.') :
    badChar c = false ∧ c ≠ ':' := by
  have hb : badChar c = false := by
    rcases Bool.eq_false_or_eq_true (badChar c) with hb | hb
    · exfalso
      have hcase : c = '@' ∨ c = '/' ∨ c = '\\' ∨ c = '?' ∨ c = '#' := by
        simpa [badChar, or_assoc] using hb
      rcases hcase with rfl | rfl | rfl | rfl | rfl <;> revert h <;> decide
    · exact hb
  refine ⟨hb, ?_⟩
  rintro rfl
  rcases h with h | h | h <;> revert h <;> decide

theorem label_char_of_digit {c : Char} (h : c.isDigit = true) :
    isAlnumChar c = true ∨ c = '-' ∨ c = '.' :=
  Or.inl (by simp [isAlnumChar, h])

theorem getLast?_cons_eq_getLastD {α : Type} (c : α) (rest : List α) :
    (c :: rest).getLast? = some (rest.getLastD c) := by
  induction rest generalizing c with
  | nil => rfl
  | cons d t ih => rw [List.getLast?_cons_cons, ih d, List.getLastD_cons]

theorem specLabel_labelOk {l : List Char} (h : specLabel l) : labelOk l = true := by
  obtain ⟨h1, h2, h3, h4, h5⟩ := h
  match l with
  | [] => simp at h1
  | c :: rest =>
    have hc : isAlnumChar c = true := by simpa using h4
    have hlast : isAlnumChar (rest.getLastD c) = true := by
      rw [getLast?_cons_eq_getLastD] at h5
      simpa using h5
    have hlen : rest.length + 1 ≤ 63 := by simpa using h2
    have hall : (c :: rest).all (fun x => isAlnumChar x || x = '-') = true := by
      rw [List.all_eq_true]
      intro x hx
      rcases h3 x hx with hh | hh
      · simp [hh]
      · simp [hh]
    simp only [labelOk, Bool.and_eq_true, decide_eq_true_eq]
    exact ⟨⟨⟨hlen, hc⟩, hlast⟩, hall⟩

theorem specLabel_no_dot {l : List Char} (h : specLabel l) : '.' ∉ l := by
  intro hm
  rcases h.2.2.1 '.' hm with hh | hh <;> revert hh <;> decide

theorem specLabel_no_colon_no_bad {l : List Char} (h : specLabel l) :
    ∀ c ∈ l, badChar c = false ∧ c ≠ ':' := by
  intro c hc
  rcases h.2.2.1 c hc with hh | hh
  · exact badChar_false_of_label_char (Or.inl hh)
  · exact badChar_false_of_label_char (Or.inr (Or.inl hh))

theorem specOctet_octetOk {l : List Char} (h : specOctet l) : octetOk l = true := by
  obtain ⟨h1, h2, h3, h4⟩ := h
  have hne : l.isEmpty = false := by
    cases l with
    | nil => simp at h1
    | cons c t => rfl
  have hall : l.all Char.isDigit = true := List.all_eq_true.mpr h3
  simp [octetOk, hne, hall, h2, h4]

theorem specOctet_specLabel {l : List Char} (h : specOctet l) : specLabel l := by
  obtain ⟨h1, h2, h3, h4⟩ := h
  have halnum : ∀ c ∈ l, isAlnumChar c = true := fun c hc => by
    simp [isAlnumChar, h3 c hc]
  refine ⟨h1, by omega, fun c hc => Or.inl (halnum c hc), ?_, ?_⟩
  · match l, h1 with
    | c :: rest, _ => simpa using halnum c (List.mem_cons_self c rest)
  · match l, h1 with
    | c :: rest, _ =>
      rw [getLast?_cons_eq_getLastD]
      have hmem : rest.getLastD c ∈ c :: rest := by
        rcases List.eq_nil_or_concat rest with rfl | ⟨t, d, rfl⟩
        · simp
        · simp [List.getLastD_concat]
      simpa using halnum _ hmem

theorem joinDots_chars {labels : List (List Char)}
    (hl : ∀ l ∈ labels, specLabel l) :
    ∀ c ∈ joinDots labels, badChar c = false ∧ c ≠ ':' := by
  intro c hc
  rcases mem_joinDots hc with ⟨l, hml, hcl⟩ | rfl
  · exact specLabel_no_colon_no_bad (hl l hml) c hcl
  · exact ⟨by decide, by decide⟩

theorem joinDots_length_pos {labels : List (List Char)}
    (hne : labels ≠ []) (hl : ∀ l ∈ labels, specLabel l) :
    1 ≤ (joinDots labels).length := by
  match labels, hne with
  | a :: t, _ =>
    have ha : 1 ≤ a.length := (hl a (List.mem_cons_self a t)).1
    match t with
    | [] => simpa [joinDots_single] using ha
    | b :: t2 =>
      rw [joinDots_cons]
      simp only [List.length_append, List.length_cons]
      omega

theorem hostDns_joinDots {labels : List (List Char)}
    (hne : labels ≠ []) (hl : ∀ l ∈ labels, specLabel l)
    (hlen : (joinDots labels).length ≤ 253) :
    hostDns (joinDots labels) = true := by
  have hsplit : splitOnChar '.' (joinDots labels) = labels :=
    splitOnChar_joinDots hne (fun l hm => specLabel_no_dot (hl l hm))
  simp only [hostDns, hsplit, Bool.and_eq_true, decide_eq_true_eq,
    List.all_eq_true]
  exact ⟨⟨joinDots_length_pos hne hl, hlen⟩, fun l hm => specLabel_labelOk (hl l hm)⟩

theorem hostCheck_of_dns {l : List Char} (h : hostDns l = true) :
    hostCheck l = true := by
  simp [hostCheck, h]

theorem validateChars_host_ok {host : List Char} (hne : host ≠ [])
    (hchars : ∀ c ∈ host, badChar c = false ∧ c ≠ ':')
    (hh : hostCheck host = true) :
    validateChars host = true := by
  have h1 : host.isEmpty = false := by
    cases host with
    | nil => exact absurd rfl hne
    | cons c t => rfl
  have h2 : host.any badChar = false := by
    apply Bool.eq_false_iff.mpr
    intro hcon
    rcases List.any_eq_true.mp hcon with ⟨c, hc, hbc⟩
    rw [(hchars c hc).1] at hbc
    exact Bool.false_ne_true hbc
  have h3 : splitOnChar ':' host = [host] :=
    splitOnChar_of_not_mem (fun hm => (hchars ':' hm).2 rfl)
  simp only [validateChars, h1, h2, h3, Bool.false_eq_true, if_false, hh]

theorem validateChars_hostport_ok {host ds : List Char} (hne : host ≠ [])
    (hchars : ∀ c ∈ host, badChar c = false ∧ c ≠ ':')
    (hh : hostCheck host = true) (hd : specPortDigits ds) :
    validateChars (host ++ ':' :: ds) = true := by
  obtain ⟨hdne, hdd, hd1, hd2⟩ := hd
  have h1 : (host ++ ':' :: ds).isEmpty = false := by
    cases host with
    | nil => rfl
    | cons c t => rfl
  have hdnotbad : ∀ c ∈ ds, badChar c = false := by
    intro c hc
    exact (badChar_false_of_label_char (label_char_of_digit (hdd c hc))).1
  have h2 : (host ++ ':' :: ds).any badChar = false := by
    apply Bool.eq_false_iff.mpr
    intro hcon
    rcases List.any_eq_true.mp hcon with ⟨c, hc, hbc⟩
    rcases List.mem_append.1 hc with hc1 | hc1
    · rw [(hchars c hc1).1] at hbc
      exact Bool.false_ne_true hbc
    · rcases List.mem_cons.1 hc1 with rfl | hc2
      · revert hbc; decide
      · rw [hdnotbad c hc2] at hbc
        exact Bool.false_ne_true hbc
  have hcds : ':' ∉ ds := by
    intro hm
    have := hdd ':' hm
    revert this; decide
  have h3 : splitOnChar ':' (host ++ ':' :: ds) = [host, ds] := by
    rw [splitOnChar_append _ (fun hm => (hchars ':' hm).2 rfl),
      splitOnChar_of_not_mem hcds]
  have h4 : ds.isEmpty = false := by
    cases ds with
    | nil => exact absurd rfl hdne
    | cons c t => rfl
  simp only [validateChars, h1, h2, h3, Bool.false_eq_true, if_false, hh,
    Bool.not_true, h4, Bool.not_false, Bool.and_eq_true, List.all_eq_true,
    decide_eq_true_eq]
  exact ⟨⟨⟨trivial, hdd⟩, hd1⟩, hd2⟩

theorem allAlnum_specLabel {l : List Char} (h1 : 1 ≤ l.length)
    (hlen : l.length ≤ 63) (halnum : ∀ c ∈ l, isAlnumChar c = true) :
    specLabel l := by
  refine ⟨h1, hlen, fun c hc => Or.inl (halnum c hc), ?_, ?_⟩
  · match l, h1 with
    | c :: rest, _ => simpa using halnum c (List.mem_cons_self c rest)
  · match l, h1 with
    | c :: rest, _ =>
      rw [getLast?_cons_eq_getLastD]
      have hmem : rest.getLastD c ∈ c :: rest := by
        rcases List.eq_nil_or_concat rest with rfl | ⟨t, d, rfl⟩
        · simp
        · simp [List.getLastD_concat]
      simpa using halnum _ hmem

theorem digits_no_dot {l : List Char} (h : ∀ c ∈ l, c.isDigit = true) :
    '.' ∉ l := by
  intro hm
  have := h '.' hm
  revert this
  decide

theorem hostIPv4_joinDots {a b c d : List Char}
    (ha : specOctet a) (hb : specOctet b) (hc : specOctet c) (hd : specOctet d) :
    hostIPv4 (joinDots [a, b, c, d]) = true := by
  have hsplit : splitOnChar '.' (joinDots [a, b, c, d]) = [a, b, c, d] := by
    apply splitOnChar_joinDots (by simp)
    intro l hl
    simp only [List.mem_cons, List.not_mem_nil, or_false] at hl
    rcases hl with rfl | rfl | rfl | rfl
    · exact digits_no_dot ha.2.2.1
    · exact digits_no_dot hb.2.2.1
    · exact digits_no_dot hc.2.2.1
    · exact digits_no_dot hd.2.2.1
  simp [hostIPv4, hsplit, specOctet_octetOk ha, specOctet_octetOk hb,
    specOctet_octetOk hc, specOctet_octetOk hd]

theorem hostCheck_of_ipv4 {l : List Char} (h : hostIPv4 l = true) :
    hostCheck l = true := by
  simp [hostCheck, h]

theorem joinDots_ne_nil {labels : List (List Char)}
    (hne : labels ≠ []) (hl : ∀ l ∈ labels, specLabel l) :
    joinDots labels ≠ [] :=
  List.length_pos.mp (joinDots_length_pos hne hl)

theorem validate_dns_pos {labels : List (List Char)}
    (hne : labels ≠ []) (hl : ∀ l ∈ labels, specLabel l)
    (hlen : (joinDots labels).length ≤ 253) :
    validate_api_ip ⟨joinDots labels⟩ = true :=
  validateChars_host_ok (joinDots_ne_nil hne hl) (joinDots_chars hl)
    (hostCheck_of_dns (hostDns_joinDots hne hl hlen))

theorem validate_dns_port_pos {labels : List (List Char)}
    (hne : labels ≠ []) (hl : ∀ l ∈ labels, specLabel l)
    (hlen : (joinDots labels).length ≤ 253)
    {ds : List Char} (hds : specPortDigits ds) :
    validate_api_ip ⟨joinDots labels ++ ':' :: ds⟩ = true :=
  validateChars_hostport_ok (joinDots_ne_nil hne hl) (joinDots_chars hl)
    (hostCheck_of_dns (hostDns_joinDots hne hl hlen)) hds

theorem specOctet_labels {a b c d : List Char}
    (ha : specOctet a) (hb : specOctet b) (hc : specOctet c) (hd : specOctet d) :
    ∀ l ∈ [a, b, c, d], specLabel l := by
  intro l hl
  simp only [List.mem_cons, List.not_mem_nil, or_false] at hl
  rcases hl with rfl | rfl | rfl | rfl
  · exact specOctet_specLabel ha
  · exact specOctet_specLabel hb
  · exact specOctet_specLabel hc
  · exact specOctet_specLabel hd

theorem validate_ipv4_pos {a b c d : List Char}
    (ha : specOctet a) (hb : specOctet b) (hc : specOctet c) (hd : specOctet d) :
    validate_api_ip ⟨joinDots [a, b, c, d]⟩ = true :=
  validateChars_host_ok
    (joinDots_ne_nil (by simp) (specOctet_labels ha hb hc hd))
    (joinDots_chars (specOctet_labels ha hb hc hd))
    (hostCheck_of_ipv4 (hostIPv4_joinDots ha hb hc hd))

theorem validate_ipv4_port_pos {a b c d : List Char}
    (ha : specOctet a) (hb : specOctet b) (hc : specOctet c) (hd : specOctet d)
    {ds : List Char} (hds : specPortDigits ds) :
    validate_api_ip ⟨joinDots [a, b, c, d] ++ ':' :: ds⟩ = true :=
  validateChars_hostport_ok
    (joinDots_ne_nil (by simp) (specOctet_labels ha hb hc hd))
    (joinDots_chars (specOctet_labels ha hb hc hd))
    (hostCheck_of_ipv4 (hostIPv4_joinDots ha hb hc hd)) hds

theorem validateChars_badchar {l : List Char} (h : ∃ c ∈ l, badChar c = true) :
    validateChars l = false := by
  obtain ⟨c, hc, hbc⟩ := h
  have h1 : l.isEmpty = false := by
    cases hl : l with
    | nil => rw [hl] at hc; simp at hc
    | cons a t => rfl
  have h2 : l.any badChar = true := List.any_eq_true.mpr ⟨c, hc, hbc⟩
  unfold validateChars
  rw [h1, h2]
  simp

theorem validate_badchar {s : String} (h : ∃ c ∈ s.toList, badChar c = true) :
    validate_api_ip s = false :=
  validateChars_badchar h

theorem validateChars_multicolon {l : List Char} (h : 2 ≤ l.count ':') :
    validateChars l = false := by
  unfold validateChars
  by_cases h1 : l.isEmpty = true
  · rw [if_pos h1]
  · rw [if_neg h1]
    by_cases h2 : l.any badChar = true
    · rw [if_pos h2]
    · rw [if_neg h2]
      have hlen : 3 ≤ (splitOnChar ':' l).length := by
        rw [splitOnChar_length]
        omega
      rcases hsp : splitOnChar ':' l with _ | ⟨a, _ | ⟨b, _ | ⟨c, t⟩⟩⟩
      · simp [hsp] at hlen
      · simp [hsp] at hlen
      · simp [hsp] at hlen
      · rfl

theorem validate_multicolon {s : String} (h : 2 ≤ s.toList.count ':') :
    validate_api_ip s = false :=
  validateChars_multicolon h

/-! ### Claim theorems -/

/-- C2: validate_api_ip accepts localhost, dotted-quad IPv4 addresses with
octets 0-255, and RFC-1123-subset DNS names (labels of 1-63 alphanumeric
characters with internal hyphens, total length at most 253), each optionally
suffixed with a colon and a decimal port in [1, 65535]; and it rejects the
empty string, any string containing one of the characters at-sign, slash,
backslash, question mark or hash, and any string with more than one colon. -/
theorem c2_validate_api_ip_spec :
    (validate_api_ip ("localhost") = true) ∧
    (∀ ds : List Char, specPortDigits ds →
      validate_api_ip ⟨("localhost").toList ++ ':' :: ds⟩ = true) ∧
    (∀ a b c d : List Char,
      specOctet a → specOctet b → specOctet c → specOctet d →
      validate_api_ip ⟨joinDots [a, b, c, d]⟩ = true ∧
      ∀ ds : List Char, specPortDigits ds →
        validate_api_ip ⟨joinDots [a, b, c, d] ++ ':' :: ds⟩ = true) ∧
    (∀ labels : List (List Char), labels ≠ [] →
      (∀ l ∈ labels, specLabel l) → (joinDots labels).length ≤ 253 →
      validate_api_ip ⟨joinDots labels⟩ = true ∧
      ∀ ds : List Char, specPortDigits ds →
        validate_api_ip ⟨joinDots labels ++ ':' :: ds⟩ = true) ∧
    (validate_api_ip ("") = false) ∧
    (∀ s : String, (∃ c ∈ s.toList, badChar c = true) →
      validate_api_ip s = false) ∧
    (∀ s : String, 2 ≤ s.toList.count ':' → validate_api_ip s = false) := by
  refine ⟨by decide, ?_, ?_, ?_, by decide, ?_, ?_⟩
  · intro ds hds
    exact validateChars_hostport_ok (by decide) (by decide) (by decide) hds
  · intro a b c d ha hb hc hd
    exact ⟨validate_ipv4_pos ha hb hc hd,
      fun ds hds => validate_ipv4_port_pos ha hb hc hd hds⟩
  · intro labels hne hl hlen
    exact ⟨validate_dns_pos hne hl hlen,
      fun ds hds => validate_dns_port_pos hne hl hlen hds⟩
  · exact fun s h => validate_badchar h
  · exact fun s h => validate_multicolon h

/-- C2 witness: concrete instances of the universally quantified clauses of
the claim theorem, hypotheses discharged by evaluation. -/
theorem c2_validate_api_ip_spec_witness :
    validate_api_ip ⟨("localhost").toList ++ ':' :: ['8', '0']⟩ = true ∧
    validate_api_ip ⟨joinDots [['1'], ['2'], ['3'], ['4']] ++ ':' :: ['4', '4', '3']⟩ = true ∧
    validate_api_ip ⟨joinDots [['a', '-', 'b'], ['c', 'o', 'm']]⟩ = true ∧
    validate_api_ip ("a@b") = false ∧
    validate_api_ip ("1:2:3") = false :=
  ⟨c2_validate_api_ip_spec.2.1 ['8', '0'] (by unfold specPortDigits; decide),
   (c2_validate_api_ip_spec.2.2.1 ['1'] ['2'] ['3'] ['4']
      (by unfold specOctet; decide) (by unfold specOctet; decide)
      (by unfold specOctet; decide) (by unfold specOctet; decide)).2
      ['4', '4', '3'] (by unfold specPortDigits; decide),
   (c2_validate_api_ip_spec.2.2.2.1 [['a', '-', 'b'], ['c', 'o', 'm']]
      (by decide) (by unfold specLabel; decide) (by decide)).1,
   c2_validate_api_ip_spec.2.2.2.2.2.1 ("a@b") ⟨'@', by decide, by decide⟩,
   c2_validate_api_ip_spec.2.2.2.2.2.2 ("1:2:3") (by decide)⟩

/-- C9: host strings that fail the IPv4 octet check can still be accepted:
every dotted all-digit host whose labels are 1-63 characters and whose total
length is at most 253 is accepted through the DNS pattern, and in particular
999.0.0.1 fails the IPv4 pattern yet validates. -/
theorem c9_digit_labels_accepted :
    hostIPv4 (String.toList ("999.0.0.1")) = false ∧
    validate_api_ip ("999.0.0.1") = true ∧
    (∀ labels : List (List Char), labels ≠ [] →
      (∀ l ∈ labels, 1 ≤ l.length ∧ l.length ≤ 63 ∧ ∀ c ∈ l, c.isDigit = true) →
      (joinDots labels).length ≤ 253 →
      validate_api_ip ⟨joinDots labels⟩ = true) := by
  refine ⟨by decide, by decide, ?_⟩
  intro labels hne hl hlen
  apply validate_dns_pos hne ?_ hlen
  intro l hml
  obtain ⟨h1, h2, h3⟩ := hl l hml
  exact allAlnum_specLabel h1 h2 (fun c hc => by simp [isAlnumChar, h3 c hc])

/-- C9 witness: the universal clause applied to the digit labels of
999.0.0.1. -/
theorem c9_digit_labels_accepted_witness :
    validate_api_ip ⟨joinDots [['9', '9', '9'], ['0'], ['0'], ['1']]⟩ = true :=
  c9_digit_labels_accepted.2.2 [['9', '9', '9'], ['0'], ['0'], ['1']]
    (by decide) (by decide) (by decide)

theorem toApiPort_int (off : Bool) (n : Int) :
    PortControl.toApiPort off (.pint n) = (toDeviceNumbering off n).map JVal.int := by
  cases off <;>
    simp only [PortControl.toApiPort, toDeviceNumbering, pyIntVal] <;>
    split_ifs <;> rfl

/-- C3: the forward port translation maps p to p unchanged for p in [0, 11]
with physical mode off and to p - 1 for p in [1, 12] with physical mode on,
and composing with the inverse response translation restores p; the first
conjunct ties the scalar translation to the port handling of control_port
and the last conjunct ties the inverse to the response translation. -/
theorem c3_port_translation_roundtrip :
    (∀ (off : Bool) (n : Int),
      PortControl.toApiPort off (.pint n) = (toDeviceNumbering off n).map JVal.int) ∧
    (∀ p : Int, 0 ≤ p → p ≤ 11 → toDeviceNumbering false p = .ok p) ∧
    (∀ p : Int, 1 ≤ p → p ≤ 12 → toDeviceNumbering true p = .ok (p - 1)) ∧
    (∀ (mode : Bool) (p : Int),
      (mode = true → 1 ≤ p ∧ p ≤ 12) → (mode = false → 0 ≤ p ∧ p ≤ 11) →
      ∃ d : Int, toDeviceNumbering mode p = .ok d ∧ toCallerNumbering mode d = p) ∧
    (∀ (off : Bool) (n : Int) (v : JVal),
      translateResponse off (.obj [("active", v), ("port", .int n)]) =
        .ok (.obj [("active", v), ("port", .int (toCallerNumbering off n))])) := by
  refine ⟨toApiPort_int, ?_, ?_, ?_, ?_⟩
  · intro p h1 h2
    have h : ¬(p < 0 ∨ 11 < p) := by omega
    simp [toDeviceNumbering, h]
  · intro p h1 h2
    have h : ¬(p < 1 ∨ 12 < p) := by omega
    simp [toDeviceNumbering, h]
  · intro mode p h1 h2
    cases mode with
    | true =>
      obtain ⟨hl, hr⟩ := h1 rfl
      have h : ¬(p < 1 ∨ 12 < p) := by omega
      refine ⟨p - 1, ?_, ?_⟩
      · simp [toDeviceNumbering, h]
      · simp [toCallerNumbering]
    | false =>
      obtain ⟨hl, hr⟩ := h2 rfl
      have h : ¬(p < 0 ∨ 11 < p) := by omega
      exact ⟨p, by simp [toDeviceNumbering, h], rfl⟩
  · intro off n v
    cases off <;> rfl

/-- C3 witness: the translation clauses applied at concrete ports. -/
theorem c3_port_translation_roundtrip_witness :
    toDeviceNumbering false 5 = .ok 5 ∧
    toDeviceNumbering true 12 = .ok (12 - 1) ∧
    (∃ d : Int, toDeviceNumbering true 7 = .ok d ∧ toCallerNumbering true d = 7) :=
  ⟨c3_port_translation_roundtrip.2.1 5 (by decide) (by decide),
   c3_port_translation_roundtrip.2.2.1 12 (by decide) (by decide),
   c3_port_translation_roundtrip.2.2.2.1 true 7
     (fun _ => by constructor <;> decide) (fun h => by cases h)⟩

/-- C5: parse_bool returns native booleans unchanged, accepts exactly the
integers 0 and 1, trims and lower-cases strings and accepts exactly the
listed truthy and falsy words, and fails on every other integer, every
other string, and every value of any other modelled type. -/
theorem c5_parse_bool_spec :
    (∀ b : Bool, PortControl.parse_bool (.pbool b) = .ok b) ∧
    (PortControl.parse_bool (.pint 0) = .ok false) ∧
    (PortControl.parse_bool (.pint 1) = .ok true) ∧
    (∀ n : Int, n ≠ 0 → n ≠ 1 →
      ∃ m, PortControl.parse_bool (.pint n) = .error m) ∧
    (∀ s : String, PortControl.parse_bool (.pstr s) = .ok true ↔
      pyLower (pyStrip s) ∈ [("true"), "1", "yes", "y", "on"]) ∧
    (∀ s : String, PortControl.parse_bool (.pstr s) = .ok false ↔
      pyLower (pyStrip s) ∈ [("false"), "0", "no", "n", "off"]) ∧
    (∃ m, PortControl.parse_bool .pnone = .error m) ∧
    (∀ q : ℚ, ∃ m, PortControl.parse_bool (.pfloat q) = .error m) ∧
    (∀ xs : List PyVal, ∃ m, PortControl.parse_bool (.plist xs) = .error m) := by
  refine ⟨fun b => rfl, rfl, rfl, ?_, ?_, ?_, ⟨_, rfl⟩,
    fun q => ⟨_, rfl⟩, fun xs => ⟨_, rfl⟩⟩
  · intro n h0 h1
    have h : ¬(n = 0 ∨ n = 1) := by tauto
    exact ⟨"Invalid integer for boolean: " ++ toString n,
      by simp [PortControl.parse_bool, h]⟩
  · intro s
    by_cases h1 : pyLower (pyStrip s) ∈ [("true"), "1", "yes", "y", "on"]
    · simp [PortControl.parse_bool, h1]
    · by_cases h2 : pyLower (pyStrip s) ∈ [("false"), "0", "no", "n", "off"]
      · simp [PortControl.parse_bool, h1, h2]
      · simp [PortControl.parse_bool, h1, h2]
  · intro s
    by_cases h1 : pyLower (pyStrip s) ∈ [("true"), "1", "yes", "y", "on"]
    · have h2 : pyLower (pyStrip s) ∉ [("false"), "0", "no", "n", "off"] := by
        simp only [List.mem_cons, List.not_mem_nil, or_false] at h1
        rcases h1 with h | h | h | h | h <;> rw [h] <;> decide
      simp [PortControl.parse_bool, h1, h2]
    · by_cases h2 : pyLower (pyStrip s) ∈ [("false"), "0", "no", "n", "off"]
      · simp [PortControl.parse_bool, h1, h2]
      · simp [PortControl.parse_bool, h1, h2]

/-- C5 witness: the integer-failure clause applied at 2 and the string
clause applied at YES, hypotheses discharged by evaluation. -/
theorem c5_parse_bool_spec_witness :
    (∃ m, PortControl.parse_bool (.pint 2) = .error m) ∧
    PortControl.parse_bool (.pstr "YES") = .ok true :=
  ⟨c5_parse_bool_spec.2.2.2.1 2 (by decide) (by decide),
   (c5_parse_bool_spec.2.2.2.2.1 ("YES")).mpr (by decide)⟩

/-- C10 counterexample: with physical mode off, a boolean true port passes
validation but the request payload carries the JSON boolean true, not the
integer 1 the claim asserts is sent to the device. -/
theorem c10_bool_port_counterexample :
    PortControl.controlPayload false (.pbool true) true =
      .ok [("port", .bool true), ("activate", .bool true)] ∧
    PortControl.controlPayload false (.pbool true) true ≠
      .ok [("port", .int 1), ("activate", .bool true)] := by
  refine ⟨rfl, ?_⟩
  intro h
  rw [show PortControl.controlPayload false (.pbool true) true =
      .ok [("port", JVal.bool true), ("activate", JVal.bool true)] from rfl] at h
  simp at h

/-- C10 amended: a boolean port value passes the range check as the integer
0 or 1; with physical mode off it is forwarded unchanged as a JSON boolean,
while with physical mode on true becomes device port 0 (an integer) and
false fails the range check. -/
theorem c10_bool_port_amended : ∀ b act : Bool,
    PortControl.controlPayload false (.pbool b) act =
      .ok [("port", .bool b), ("activate", .bool act)] ∧
    PortControl.controlPayload true (.pbool true) act =
      .ok [("port", .int 0), ("activate", .bool act)] ∧
    PortControl.controlPayload true (.pbool false) act =
      .error ("FireBreak port must be an integer between 1 and 12 (physical numbering), got: False") := by
  intro b act
  refine ⟨?_, rfl, rfl⟩
  cases b <;> rfl

/-- C6: an out-of-range integer port fails control_port with a message
naming the active numbering system and its valid range, and lambda_handler
maps that failure to a 400 envelope carrying the message. -/
theorem c6_out_of_range_envelope : ∀ (p : Int) (t : ℚ) (up : UpstreamOutcome),
    ((p < 1 ∨ 12 < p) →
      PortControl.toApiPort true (.pint p) =
        .error ("FireBreak port must be an integer between 1 and 12 (physical numbering), got: " ++ toString p) ∧
      PortControl.lambda_handler true true ⟨.absent, some (.pint p), some (.pbool true)⟩ up t =
        ⟨400, [("error", .str ("FireBreak port must be an integer between 1 and 12 (physical numbering), got: " ++ toString p)),
               ("executionTimeMs", .rat (round2 t))]⟩) ∧
    ((p < 0 ∨ 11 < p) →
      PortControl.toApiPort false (.pint p) =
        .error ("FireBreak port must be an integer between 0 and 11 (API numbering), got: " ++ toString p) ∧
      PortControl.lambda_handler false true ⟨.absent, some (.pint p), some (.pbool true)⟩ up t =
        ⟨400, [("error", .str ("FireBreak port must be an integer between 0 and 11 (API numbering), got: " ++ toString p)),
               ("executionTimeMs", .rat (round2 t))]⟩) := by
  intro p t up
  have hnorm : PortControl.normalizePort (.pint p) = .ok (.pint p) := rfl
  have hbool : PortControl.parse_bool (.pbool true) = .ok true := rfl
  constructor
  · intro h
    have h1 : PortControl.toApiPort true (.pint p) =
        .error ("FireBreak port must be an integer between 1 and 12 (physical numbering), got: " ++ toString p) := by
      simp [PortControl.toApiPort, pyIntVal, h, pyStr, pyRepr]
    have h2 : PortControl.control_port true (.pint p) true up =
        .error (.valueError ("FireBreak port must be an integer between 1 and 12 (physical numbering), got: " ++ toString p)) := by
      simp [PortControl.control_port, PortControl.controlPayload, h1, Except.map]
    exact ⟨h1, by
      simp [PortControl.lambda_handler, PortControl.handlerCore, hnorm, hbool, h2]⟩
  · intro h
    have h1 : PortControl.toApiPort false (.pint p) =
        .error ("FireBreak port must be an integer between 0 and 11 (API numbering), got: " ++ toString p) := by
      simp [PortControl.toApiPort, pyIntVal, h, pyStr, pyRepr]
    have h2 : PortControl.control_port false (.pint p) true up =
        .error (.valueError ("FireBreak port must be an integer between 0 and 11 (API numbering), got: " ++ toString p)) := by
      simp [PortControl.control_port, PortControl.controlPayload, h1, Except.map]
    exact ⟨h1, by
      simp [PortControl.lambda_handler, PortControl.handlerCore, hnorm, hbool, h2]⟩

/-- C6 witness: the physical-numbering clause applied at port 99. -/
theorem c6_out_of_range_envelope_witness :
    PortControl.lambda_handler true true ⟨.absent, some (.pint 99), some (.pbool true)⟩ .badJson 0 =
      ⟨400, [("error", .str ("FireBreak port must be an integer between 1 and 12 (physical numbering), got: " ++ toString (99 : Int))),
             ("executionTimeMs", .rat (round2 0))]⟩ :=
  ((c6_out_of_range_envelope 99 0 .badJson).1 (by decide)).2

/-- C7: a string port equal to all in any casing is normalized to the
sentinel and forwarded in the request payload as the unchanged string all
under both numbering modes, with no offset arithmetic applied to it; every
other non-numeric string port yields a 400 invalid-port-type envelope. -/
theorem c7_all_sentinel :
    (∀ s : String, pyLower s = "all" →
      PortControl.normalizePort (.pstr s) = .ok (.pstr "all")) ∧
    (∀ off act : Bool,
      PortControl.controlPayload off (.pstr "all") act =
        .ok [("port", .str "all"), ("activate", .bool act)]) ∧
    (∀ (s : String) (off : Bool) (t : ℚ) (up : UpstreamOutcome),
      pyLower s ≠ "all" → pyIntParse s = none →
      PortControl.lambda_handler off true ⟨.absent, some (.pstr s), some (.pbool true)⟩ up t =
        ⟨400, [("error", .str ("FireBreak port must be a number (0-11) or \x27all\x27, got: " ++ s)),
               ("executionTimeMs", .rat (round2 t))]⟩) := by
  refine ⟨?_, ?_, ?_⟩
  · intro s h
    simp only [PortControl.normalizePort]
    rw [if_pos h]
  · intro off act
    cases off <;> rfl
  · intro s off t up h1 h2
    have hbool : PortControl.parse_bool (.pbool true) = .ok true := rfl
    have hnorm : PortControl.normalizePort (.pstr s) =
        .error ("FireBreak port must be a number (0-11) or \x27all\x27, got: " ++ s) := by
      simp only [PortControl.normalizePort]
      rw [if_neg h1, h2]
    simp [PortControl.lambda_handler, PortControl.handlerCore, hnorm, hbool]

/-- C7 witness: the sentinel clause applied at ALL and the failure clause
applied at a non-numeric string. -/
theorem c7_all_sentinel_witness :
    PortControl.normalizePort (.pstr "ALL") = .ok (.pstr "all") ∧
    PortControl.lambda_handler false true ⟨.absent, some (.pstr "abc"), some (.pbool true)⟩ .badJson 0 =
      ⟨400, [("error", .str ("FireBreak port must be a number (0-11) or \x27all\x27, got: " ++ "abc")),
             ("executionTimeMs", .rat (round2 0))]⟩ :=
  ⟨c7_all_sentinel.1 ("ALL") (by decide),
   c7_all_sentinel.2.2 ("abc") false 0 .badJson (by decide) (by decide)⟩

/-- C8: a successful list result is wrapped in the body as a ports field
plus executionTimeMs, while a successful single-port dict result is merged
flat with executionTimeMs appended; the status handler wraps list results
the same way. -/
theorem c8_result_wrapping :
    (∀ (xs : List JVal) (t : ℚ),
      PortControl.lambda_handler false true ⟨.absent, some (.pstr "all"), some (.pbool true)⟩ (.ok (.arr xs)) t =
        ⟨200, [("ports", .arr xs), ("executionTimeMs", .rat (round2 t))]⟩) ∧
    (∀ (fs : List (String × JVal)) (t : ℚ),
      PortControl.lambda_handler false true ⟨.absent, some (.pint 3), some (.pbool true)⟩ (.ok (.obj fs)) t =
        ⟨200, setField fs ("executionTimeMs") (.rat (round2 t))⟩) ∧
    (∀ (xs : List JVal) (t : ℚ),
      PortStatus.lambda_handler false true (.ok (.arr xs)) t =
        ⟨200, [("ports", .arr xs), ("executionTimeMs", .rat (round2 t))]⟩) := by
  refine ⟨?_, ?_, ?_⟩ <;> intros <;> rfl

/-- C4: the envelope status-code mapping: every malformed-input error kind
yields 400, a missing credential yields 500, an upstream HTTP error status
is passed through, a transport error yields 502, a malformed upstream
response yields 500, and any unclassified failure yields 500. -/
theorem c4_status_code_mapping :
    (∀ (off : Bool) (t : ℚ) (up : UpstreamOutcome),
      (PortControl.lambda_handler off true ⟨.absent, none, some (.pbool true)⟩ up t).statusCode = 400) ∧
    (∀ (off : Bool) (t : ℚ) (up : UpstreamOutcome),
      (PortControl.lambda_handler off true ⟨.absent, some (.pint 1), none⟩ up t).statusCode = 400) ∧
    (∀ (off : Bool) (t : ℚ) (up : UpstreamOutcome),
      (PortControl.lambda_handler off true ⟨.malformed, none, none⟩ up t).statusCode = 400) ∧
    (∀ (off : Bool) (t : ℚ) (up : UpstreamOutcome),
      (PortControl.lambda_handler off true ⟨.absent, some (.pint 1), some (.pstr "maybe")⟩ up t).statusCode = 400) ∧
    (∀ (off : Bool) (t : ℚ) (up : UpstreamOutcome),
      (PortControl.lambda_handler off true ⟨.absent, some (.pstr "12a"), some (.pbool true)⟩ up t).statusCode = 400) ∧
    (∀ (off : Bool) (t : ℚ) (up : UpstreamOutcome),
      (PortControl.lambda_handler off true ⟨.absent, some (.plist []), some (.pbool true)⟩ up t).statusCode = 400) ∧
    (∀ (off : Bool) (t : ℚ) (up : UpstreamOutcome),
      (PortControl.lambda_handler off true ⟨.absent, some (.pint 99), some (.pbool true)⟩ up t).statusCode = 400) ∧
    (∀ (off : Bool) (ev : PortControl.Event) (t : ℚ) (up : UpstreamOutcome),
      (PortControl.lambda_handler off false ev up t).statusCode = 500) ∧
    (∀ (off : Bool) (t : ℚ) (up : UpstreamOutcome),
      (PortStatus.lambda_handler off false up t).statusCode = 500) ∧
    (∀ (c : Nat) (r : String) (t : ℚ),
      (PortControl.lambda_handler false true ⟨.absent, some (.pint 1), some (.pbool true)⟩ (.httpError c r) t).statusCode = c ∧
      (PortStatus.lambda_handler false true (.httpError c r) t).statusCode = c) ∧
    (∀ (r : String) (t : ℚ),
      (PortControl.lambda_handler false true ⟨.absent, some (.pint 1), some (.pbool true)⟩ (.urlError r) t).statusCode = 502 ∧
      (PortStatus.lambda_handler false true (.urlError r) t).statusCode = 502) ∧
    (∀ t : ℚ,
      (PortControl.lambda_handler false true ⟨.absent, some (.pint 1), some (.pbool true)⟩ .badJson t).statusCode = 500 ∧
      (PortStatus.lambda_handler false true .badJson t).statusCode = 500) ∧
    (∀ (d : String) (t : ℚ),
      (PortControl.lambda_handler false true ⟨.absent, some (.pint 1), some (.pbool true)⟩ (.otherError d) t).statusCode = 500 ∧
      (PortStatus.lambda_handler false true (.otherError d) t).statusCode = 500) := by
  refine ⟨fun off t up => rfl, fun off t up => rfl, fun off t up => rfl,
    fun off t up => rfl, fun off t up => rfl, fun off t up => rfl,
    ?_, fun off ev t up => rfl, fun off t up => rfl,
    fun c r t => ⟨rfl, rfl⟩, fun r t => ⟨rfl, rfl⟩, fun t => ⟨rfl, rfl⟩,
    fun d t => ⟨rfl, rfl⟩⟩
  intro off t up
  cases off <;> rfl

/-- C1: the Lambda handlers are specified to include executionTimeMs in
every envelope body; the invalid-JSON-body return of the control handler is
the one path that omits it, while the neighbouring error paths include it,
contradicting the handler docstring and the specification. -/
theorem c1_invalid_json_body_missing_timing :
    (PortControl.lambda_handler false true ⟨.malformed, none, none⟩ (.ok .null) 0).statusCode = 400 ∧
    ((PortControl.lambda_handler false true ⟨.malformed, none, none⟩ (.ok .null) 0).body.lookup ("executionTimeMs")) = none ∧
    ((PortControl.lambda_handler false true ⟨.absent, none, none⟩ (.ok .null) 0).body.lookup ("executionTimeMs")) = some (.rat (round2 0)) :=
  ⟨rfl, rfl, rfl⟩

end FireBreak
